import Mathlib

/-!
A shallow embedding in Lean 4 of the core of the `smart-ats` repository:
the matching/scoring engine (`src/matching_engine.py`) and the pieces of
the resume parser (`src/resume_parser.py`) that the verified properties
touch.  Python floats are modelled by `ℚ` (the scoring arithmetic is
plain +, *, /, min, max and 2-decimal rounding), Python ints by `Nat`
or `Int` as the data contract dictates, strings by `String` restricted
to their ASCII behaviour, and code that can raise (`ZeroDivisionError`)
by `Option`-valued functions where `none` marks the raised exception.
Dictionaries with a fixed key set become structures; `collections.Counter`
becomes an insertion-ordered association list.
-/

/- Batteries marks the `Rat` field operations `@[irreducible]`, which
blocks `rfl`/`decide` evaluation of the embedded scoring functions on
concrete inputs.  Restore definitional transparency for them: the kernel
re-checks every such evaluation anyway. -/
set_option allowUnsafeReducibility true
attribute [local semireducible] Rat.add Rat.sub Rat.mul Rat.inv Rat.ofScientific

namespace SmartATS

/-! ## Python string primitives (ASCII model) -/

/-- ASCII uppercase letter test. -/
def isAsciiUpper (c : Char) : Bool := 'A' ≤ c && c ≤ 'Z'

/-- ASCII lowercase letter test. -/
def isAsciiLower (c : Char) : Bool := 'a' ≤ c && c ≤ 'z'

/-- ASCII letter test (Python `str.isalpha` on ASCII input). -/
def isAsciiAlpha (c : Char) : Bool := isAsciiUpper c || isAsciiLower c

/-- ASCII digit test. -/
def isAsciiDigit (c : Char) : Bool := '0' ≤ c && c ≤ '9'

/-- Python `str.lower` on an ASCII character. -/
def pyLowerChar (c : Char) : Char :=
  if isAsciiUpper c then Char.ofNat (c.toNat + 32) else c

/-- Python `str.lower` (ASCII model). -/
def pyLower (s : String) : String := String.mk (s.toList.map pyLowerChar)

/-- Python whitespace, the characters stripped by `str.strip()` and matched
by the regex class `\s`: space, tab, newline, carriage return, vertical
tab, form feed. -/
def isPySpace (c : Char) : Bool :=
  c = ' ' || c = '\t' || c = '\n' || c = '\x0d' || c = '\x0b' || c = '\x0c'

/-- Python `str.strip()`: drop leading and trailing whitespace. -/
def pyStrip (s : String) : String :=
  String.mk (((s.toList.dropWhile isPySpace).reverse.dropWhile isPySpace).reverse)

/-- `pat` occurs as a contiguous substring of `hay` (Python `pat in hay`).
The empty pattern occurs in every string, as in Python. -/
def listContainsSub (pat : List Char) : List Char → Bool
  | [] => pat.isPrefixOf []
  | c :: t => pat.isPrefixOf (c :: t) || listContainsSub pat t

/-- Python substring test `pat in hay`. -/
def containsSub (hay pat : String) : Bool := listContainsSub pat.toList hay.toList

/-- Python `hay.count(pat)`: number of non-overlapping occurrences scanned
left to right.  Python returns `len(hay) + 1` for the empty pattern. -/
def countSubList (pat : List Char) (hay : List Char) : Nat :=
  if h : pat = [] then hay.length + 1
  else
    match hay with
    | [] => 0
    | c :: t =>
      if pat.isPrefixOf (c :: t) then 1 + countSubList pat (List.drop (pat.length - 1) t)
      else countSubList pat t
termination_by hay.length
decreasing_by
  · simp only [List.length_cons]
    have := List.length_drop (pat.length - 1) t
    omega
  · simp [List.length_cons]

/-- Python `hay.count(pat)`. -/
def countSub (hay pat : String) : Nat := countSubList pat.toList hay.toList

/-- Python `str.isdigit` (ASCII model): nonempty and all digits. -/
def pyIsDigitStr (s : String) : Bool := !s.toList.isEmpty && s.toList.all isAsciiDigit

/-- Python `str.isalpha` (ASCII model): nonempty and all letters. -/
def pyIsAlphaStr (s : String) : Bool := !s.toList.isEmpty && s.toList.all isAsciiAlpha

/-! ## Regex word tokenization

The engine tokenizes with `re.findall(r'\b[a-zA-Z]{3,}\b', text)`.
Because `\b` separates `\w` ([A-Za-z0-9_]) from non-`\w`, the matches
are exactly the maximal runs of word characters that consist solely of
letters and have the required minimum length.  We therefore model the
tokenizer by splitting the text into maximal word-character runs and
filtering. -/

/-- Python regex word character `\w` (ASCII model). -/
def isWordChar (c : Char) : Bool := isAsciiAlpha c || isAsciiDigit c || c = '_'

/-- Split into maximal runs of word characters (helper; `acc` holds the
current run reversed). -/
def wordRunsAux : List Char → List Char → List (List Char)
  | [], acc => if acc.isEmpty then [] else [acc.reverse]
  | c :: t, acc =>
    if isWordChar c then wordRunsAux t (c :: acc)
    else if acc.isEmpty then wordRunsAux t [] else acc.reverse :: wordRunsAux t []

/-- The maximal word-character runs of a string, in order. -/
def wordRuns (s : String) : List String := (wordRunsAux s.toList []).map String.mk

/-- `re.findall(r'\b[a-zA-Z]{n,}\b', s)`: the maximal word runs that are
all-alphabetic and at least `n` characters long. -/
def alphaTokensMin (n : Nat) (s : String) : List String :=
  (wordRuns s).filter (fun r => n ≤ r.length && r.toList.all isAsciiAlpha)

/-! ## `collections.Counter` as an insertion-ordered association list

A Python `Counter` built from a list iterates its items in first-occurrence
order of the keys, each with the total count.  `dedupFirst` keeps the first
occurrence of every element. -/

/-- First-occurrence deduplication (Python dict key order). -/
def dedupFirst : List String → List String
  | [] => []
  | w :: ws => w :: (dedupFirst ws).filter (fun x => x ≠ w)

/-- `Counter(ws).items()` in iteration order. -/
def counterItems (ws : List String) : List (String × Nat) :=
  (dedupFirst ws).map (fun w => (w, ws.count w))

/-- `freq.get(w, 0)` on a counter represented as an association list. -/
def lookupCount (items : List (String × Nat)) (w : String) : Nat :=
  match items.find? (fun p => p.1 = w) with
  | some p => p.2
  | none => 0

/-! ## Stable descending sort

`list.sort(key=..., reverse=True)` and `Counter.most_common(n)` are stable
descending sorts: ties keep their original relative order.  A stable sort
for a fixed comparator is extensionally unique, so insertion sort is an
exact model of CPython timsort and of `heapq.nlargest` as used by
`most_common`. -/

/-- Insert `x` into `l`, placing it before the first element whose key is
not strictly greater: descending order, ties after existing elements. -/
def insertDescBy {α β : Type} [LinearOrder β] (key : α → β) (x : α) : List α → List α
  | [] => [x]
  | y :: ys => if key x < key y then y :: insertDescBy key x ys else x :: y :: ys

/-- Stable sort into non-increasing key order. -/
def sortDescBy {α β : Type} [LinearOrder β] (key : α → β) : List α → List α
  | [] => []
  | x :: xs => insertDescBy key x (sortDescBy key xs)

/-- `Counter.most_common n`: items stably sorted by descending count,
first `n` kept. -/
def mostCommon (n : Nat) (items : List (String × Nat)) : List (String × Nat) :=
  (sortDescBy (fun p => p.2) items).take n

/-! ## Rounding

`round(x, 2)` on Python floats, modelled as exact rounding of a rational
to 2 decimal places (the model ignores binary floating point and uses
mathematical rounding to nearest; the verified properties do not depend
on half-way tie direction). -/

def pyRound2 (x : ℚ) : ℚ := (round (x * 100) : ℚ) / 100

/-! ## Data model

Structured records for the dict-shaped values exchanged with the engine
(`CandidateProfile` / `JobPosting` of the data contract).  Fields the
engine and suggestion generator never read (`categorized`, `top_keywords`,
display-only name, summary fields other than `word_count`) are omitted. -/

structure ContactInfo where
  email : Option String
  phone : Option String
  linkedin : Option String
  deriving Repr, DecidableEq

structure SkillsInfo where
  all_skills : List String
  skill_count : Nat
  deriving Repr, DecidableEq

structure ExperienceInfo where
  estimated_years : Nat
  title_count : Nat
  deriving Repr, DecidableEq

structure EducationInfo where
  degrees : List String
  degree_count : Nat
  deriving Repr, DecidableEq

structure KeywordsInfo where
  total_words : Nat
  unique_words : Nat
  deriving Repr, DecidableEq

structure SummaryStats where
  word_count : Nat
  deriving Repr, DecidableEq

structure CandidateData where
  raw_text : String
  contact_info : ContactInfo
  skills : SkillsInfo
  experience : ExperienceInfo
  education : EducationInfo
  keywords : KeywordsInfo
  summary_stats : SummaryStats
  deriving Repr, DecidableEq

/-- A stored candidate record; `ident` stands for the surrounding fields
(id, filename, upload timestamp, ...) that the engine carries through
untouched. -/
structure Candidate where
  ident : Nat
  parsed_data : CandidateData
  deriving Repr, DecidableEq

/-- One entry of `job_data['dynamic_keywords']` as produced by
`extract_job_keywords`. -/
structure DynKeyword where
  keyword : String
  score : ℚ
  frequency : Nat
  type : String
  deriving Repr, DecidableEq

structure JobData where
  description : String
  required_skills : List String
  experience_years : Nat
  education_level : String
  dynamic_keywords : List DynKeyword
  deriving Repr, DecidableEq

/-! ## MatchingEngine fixed tables (`MatchingEngine.__init__`) -/

/-- `self.weights` — the single weight set of the engine. -/
structure Weights where
  skills_match : ℚ
  experience_match : ℚ
  education_match : ℚ
  keyword_match : ℚ
  dynamic_keyword_match : ℚ

def weights : Weights :=
  { skills_match := 35/100
    experience_match := 20/100
    education_match := 15/100
    keyword_match := 20/100
    dynamic_keyword_match := 10/100 }

/-- The five weight values in dict order, for summation statements. -/
def weightsList : List ℚ :=
  [weights.skills_match, weights.experience_match, weights.education_match,
   weights.keyword_match, weights.dynamic_keyword_match]

/-- `self.education_hierarchy`, in dict insertion order. -/
def educationHierarchy : List (String × Nat) :=
  [("high school", 1), ("diploma", 2), ("certificate", 2), ("associate", 3),
   ("bachelor", 4), ("master", 5), ("mba", 6), ("phd", 7), ("doctorate", 7)]

/-- The `skill_synonyms` table of `_calculate_skills_match_enhanced`. -/
def skillSynonyms : List (String × List String) :=
  [("javascript", ["js", "ecmascript", "node.js", "nodejs"]),
   ("python", ["py"]),
   ("react", ["reactjs", "react.js"]),
   ("angular", ["angularjs", "angular.js"]),
   ("machine learning", ["ml", "artificial intelligence", "ai"]),
   ("amazon web services", ["aws"]),
   ("microsoft azure", ["azure"]),
   ("google cloud", ["gcp", "google cloud platform"]),
   ("docker", ["containerization"]),
   ("kubernetes", ["k8s", "container orchestration"]),
   ("sql", ["mysql", "postgresql", "database"]),
   ("css", ["css3", "cascading style sheets"]),
   ("html", ["html5", "hypertext markup language"])]

/-- The stop-word set of `_extract_meaningful_keywords` (the source writes
a set literal; the duplicate entry it contains is irrelevant to
membership). -/
def stopWords : List String :=
  ["the", "and", "for", "are", "but", "not", "you", "all", "can", "had", "her",
   "was", "one", "our", "out", "day", "get", "has", "him", "his", "how", "its",
   "may", "new", "now", "old", "see", "two", "who", "boy", "did", "she", "use",
   "way", "will", "have", "been", "that", "this", "with", "from", "they", "know",
   "want", "been", "good", "much", "some", "time", "very", "when", "come", "here",
   "just", "like", "long", "make", "many", "over", "such", "take", "than", "them",
   "well", "were", "what", "your", "work", "years", "would", "there", "said",
   "each", "which", "their", "called", "other", "made", "more", "find", "where"]

/-- The extended stop-word set of `extract_job_keywords`: the same words
plus job-posting filler. -/
def jobStopWords : List String :=
  stopWords ++ ["should", "must", "able", "experience", "candidate", "position", "role", "job"]

/-! ## `extract_job_keywords` -/

/-- The technical suffixes of the second `technical_patterns` regex. -/
def techSuffixes : List String :=
  ["js", "sql", "api", "sdk", "ide", "ui", "ux", "css", "html", "xml", "json"]

/-- The popular-technology whitelist of the third `technical_patterns`
regex. -/
def popularTechs : List String :=
  ["python", "java", "javascript", "react", "angular", "node", "docker",
   "kubernetes", "aws", "azure", "gcp"]

/-- `s` ends with `suf`. -/
def strEndsWith (s suf : String) : Bool := suf.toList.isSuffixOf s.toList

/-- The `technical_terms` list: matches of the three `technical_patterns`
over the lowercased description, concatenated in pattern order.  On the
already-lowercased text each pattern matches whole maximal word runs:
`\b[A-Z]{2,}\b` with `re.IGNORECASE` matches every all-letter run of
length ≥ 2; `\b\w*(suffix)\b` matches every run ending in a technical
suffix; the whitelist pattern matches every run equal to a listed word. -/
def technicalTerms (text : String) : List String :=
  let runs := wordRuns text
  (runs.filter (fun r => 2 ≤ r.length && r.toList.all isAsciiAlpha))
    ++ (runs.filter (fun r => techSuffixes.any (fun suf => strEndsWith r suf)))
    ++ (runs.filter (fun r => popularTechs.contains r))

/-- The per-token score of `extract_job_keywords`: raw frequency, `* 2`
when the token occurs (case-insensitively) among the detected technical
terms, `* 1.2` when longer than 6 characters. -/
def jobKeywordScore (tech : List String) (word : String) (freq : Nat) : ℚ :=
  let s0 : ℚ := freq
  let s1 := if (tech.map pyLower).contains (pyLower word) then s0 * 2 else s0
  if 6 < word.length then s1 * (12/10) else s1

/-- `MatchingEngine.extract_job_keywords`. -/
def extractJobKeywords (job_description : String) : List DynKeyword :=
  if job_description = "" then []
  else
    let text := pyLower job_description
    let words := alphaTokensMin 3 text
    let meaningful_words := words.filter (fun w => !jobStopWords.contains w)
    let word_freq := counterItems meaningful_words
    let tech := technicalTerms text
    (mostCommon 30 word_freq).map (fun p =>
      { keyword := p.1, score := jobKeywordScore tech p.1 p.2,
        frequency := p.2, type := "single" })

/-! ## `_calculate_skills_match_enhanced` -/

structure SkillsResult where
  score : ℚ
  matched_count : Nat
  missing_count : Nat
  total_required : Nat
  deriving Repr, DecidableEq

/-- A required skill is skipped when it strips to the empty string. -/
def nonBlank (s : String) : Bool := pyStrip s ≠ ""

/-- The synonym-table test of the inner loop: `required_lower` and a
candidate skill are paired in `skill_synonyms` in either direction. -/
def synonymPair (required_lower candidate_skill : String) : Bool :=
  skillSynonyms.any (fun p =>
    (required_lower = p.1 && p.2.contains candidate_skill)
      || (p.2.contains required_lower && candidate_skill = p.1))

/-- One required skill matches the candidate list: direct membership, a
substring containment in either direction, or a synonym pairing.  (The
Python loop breaks at the first candidate that matches; membership in
`matched_skills` depends only on whether some candidate matches.) -/
def skillMatches (candidate_skills_lower : List String) (required_lower : String) : Bool :=
  candidate_skills_lower.contains required_lower
    || candidate_skills_lower.any (fun c =>
        containsSub c required_lower || containsSub required_lower c
          || synonymPair required_lower c)

/-- `MatchingEngine._calculate_skills_match_enhanced`. -/
def calcSkillsMatchEnhanced (required_skills candidate_skills : List String) : SkillsResult :=
  if required_skills = [] then
    { score := 1, matched_count := 0, missing_count := 0, total_required := 0 }
  else
    let candidate_skills_lower := candidate_skills.map (fun s => pyStrip (pyLower s))
    let matched_skills := required_skills.filter (fun r =>
      nonBlank r && skillMatches candidate_skills_lower (pyStrip (pyLower r)))
    let missing_skills := required_skills.filter (fun r =>
      nonBlank r && !skillMatches candidate_skills_lower (pyStrip (pyLower r)))
    let total_required := (required_skills.filter nonBlank).length
    { score := if 0 < total_required then (matched_skills.length : ℚ) / total_required else 0
      matched_count := matched_skills.length
      missing_count := missing_skills.length
      total_required := total_required }

/-! ## `_calculate_experience_match` -/

/-- `MatchingEngine._calculate_experience_match` (the Python function wraps
the score in a one-key dict). -/
def calcExperienceMatch (required_years candidate_years : Nat) : ℚ :=
  if required_years = 0 then 1
  else if required_years ≤ candidate_years then
    if candidate_years ≤ required_years * 2 then 1 else 9/10
  else
    max (1/10) ((candidate_years : ℚ) / required_years)

/-! ## `_calculate_education_match` -/

/-- `MatchingEngine._get_education_level`: the first hierarchy entry whose
name occurs in the lowercased text, else 0. -/
def getEducationLevel (education_text : String) : Nat :=
  match educationHierarchy.find? (fun p => containsSub (pyLower education_text) p.1) with
  | some p => p.2
  | none => 0

/-- Python `max(list, default := 0)`. -/
def maxNat (l : List Nat) : Nat := l.foldr max 0

/-- `MatchingEngine._calculate_education_match` (dict wrapper dropped). -/
def calcEducationMatch (required_education : String) (candidate_degrees : List String) : ℚ :=
  if pyStrip required_education = "" then 1
  else
    let required_level := getEducationLevel required_education
    let candidate_level := maxNat (candidate_degrees.map getEducationLevel)
    if required_level ≤ candidate_level then 1
    else if candidate_level = 0 then 3/10
    else min 1 ((candidate_level : ℚ) / required_level)

/-! ## `_calculate_keyword_match_enhanced` -/

/-- `MatchingEngine._extract_meaningful_keywords`.  The regex keeps
all-alphabetic tokens of length ≥ 3; the subsequent filter keeps those not
in the stop-word set and of length strictly greater than 3 (the
`isdigit`/`isalpha` re-checks are tautological on regex output but are
kept verbatim). -/
def extractMeaningfulKeywords (text : String) : List String :=
  if text = "" then []
  else
    (alphaTokensMin 3 (pyLower text)).filter (fun w =>
      !stopWords.contains w && 3 < w.length && !pyIsDigitStr w && pyIsAlphaStr w)

/-- `MatchingEngine._calculate_keyword_match_enhanced` (dict wrapper
dropped). -/
def calcKeywordMatchEnhanced (job_description candidate_text : String) : ℚ :=
  if job_description = "" then 1
  else
    let job_keywords := extractMeaningfulKeywords job_description
    let candidate_keywords := extractMeaningfulKeywords candidate_text
    if job_keywords = [] then 1
    else
      let job_freq := counterItems job_keywords
      let candidate_freq := counterItems candidate_keywords
      let total_score := (job_freq.map (fun p =>
        ((min p.2 (lookupCount candidate_freq p.1) : ℕ) : ℚ) / p.2 * p.2)).sum
      let max_possible_score := (job_freq.map (fun p => (p.2 : ℚ))).sum
      let final_score := if 0 < max_possible_score then total_score / max_possible_score else 0
      min 1 final_score

/-! ## `_calculate_dynamic_keyword_match` -/

structure DynResult where
  score : ℚ
  matched_count : Nat
  deriving Repr, DecidableEq

/-- The accumulation loop of `_calculate_dynamic_keyword_match`: state is
(matched count, total_score, max_possible_score).  `none` models the
`ZeroDivisionError` raised by `occurrences / keyword_data['frequency']`
when a keyword with frequency 0 occurs in the candidate text. -/
def dynFold (candidate_text_lower : String) :
    List DynKeyword → Nat × ℚ × ℚ → Option (Nat × ℚ × ℚ)
  | [], st => some st
  | e :: rest, (m, total, maxp) =>
    let kw := pyLower e.keyword
    if containsSub candidate_text_lower kw then
      if e.frequency = 0 then none
      else
        let occurrences := countSub candidate_text_lower kw
        dynFold candidate_text_lower rest
          (m + 1, total + min 1 ((occurrences : ℚ) / e.frequency) * e.score, maxp + e.score)
    else dynFold candidate_text_lower rest (m, total, maxp + e.score)

/-- `MatchingEngine._calculate_dynamic_keyword_match`. -/
def calcDynamicKeywordMatch (dynamic_keywords : List DynKeyword) (candidate_text : String) :
    Option DynResult :=
  if dynamic_keywords = [] then some { score := 1, matched_count := 0 }
  else
    (dynFold (pyLower candidate_text) dynamic_keywords (0, 0, 0)).map (fun st =>
      let final_score := if 0 < st.2.2 then st.2.1 / st.2.2 else 0
      { score := min 1 final_score, matched_count := st.1 })

/-! ## `_calculate_enhanced_match_score` -/

structure Breakdown where
  skills : ℚ
  experience : ℚ
  education : ℚ
  keywords : ℚ
  dynamic_keywords : ℚ
  deriving Repr, DecidableEq

structure MatchScore where
  total_score : ℚ
  breakdown : Breakdown
  strengths : List String
  gaps : List String
  deriving Repr, DecidableEq

/-- The skills branch of the strengths/gaps analysis (if / elif / elif). -/
def skillsAnalysis (s : SkillsResult) : List String × List String :=
  if 8/10 < s.score then
    (["Excellent skills match (" ++ toString s.matched_count ++ "/"
        ++ toString s.total_required ++ " required skills)"], [])
  else if 6/10 < s.score then
    (["Good skills match (" ++ toString s.matched_count ++ "/"
        ++ toString s.total_required ++ " required skills)"], [])
  else if s.score < 4/10 then
    ([], ["Missing key skills (" ++ toString s.missing_count ++ " out of "
        ++ toString s.total_required ++ " required)"])
  else ([], [])

/-- The experience branch of the strengths/gaps analysis. -/
def experienceAnalysis (score : ℚ) (required_years candidate_years : Nat) :
    List String × List String :=
  if 9/10 < score then (["Perfect experience level match"], [])
  else if 7/10 < score then (["Good experience level"], [])
  else if score < 5/10 then
    let exp_gap : Int := (required_years : Int) - (candidate_years : Int)
    if 0 < exp_gap then
      ([], ["May need " ++ toString exp_gap ++ " more years of experience"])
    else ([], [])
  else ([], [])

/-- The education branch of the strengths/gaps analysis
(`job_data.get('education_level')` is truthy iff non-empty). -/
def educationAnalysis (score : ℚ) (education_level : String) : List String × List String :=
  if 8/10 < score then (["Strong educational background"], [])
  else if score < 3/10 && education_level ≠ "" then
    ([], ["Education level may not meet requirements"])
  else ([], [])

/-- The dynamic-keyword branch of the strengths/gaps analysis. -/
def dynamicAnalysis (d : DynResult) : List String × List String :=
  if 7/10 < d.score then
    (["Strong keyword alignment (" ++ toString d.matched_count ++ " key terms matched)"], [])
  else if d.score < 3/10 then
    ([], ["Limited alignment with job-specific requirements"])
  else ([], [])

/-- `MatchingEngine._calculate_enhanced_match_score`.  `none` models a
propagated `ZeroDivisionError` from the dynamic-keyword sub-score. -/
def calcEnhancedMatchScore (job_data : JobData) (candidate_data : CandidateData) :
    Option MatchScore :=
  let skills_score := calcSkillsMatchEnhanced job_data.required_skills
      candidate_data.skills.all_skills
  let experience_score := calcExperienceMatch job_data.experience_years
      candidate_data.experience.estimated_years
  let education_score := calcEducationMatch job_data.education_level
      candidate_data.education.degrees
  let keyword_score := calcKeywordMatchEnhanced job_data.description candidate_data.raw_text
  (calcDynamicKeywordMatch job_data.dynamic_keywords candidate_data.raw_text).map
    (fun dynamic_keyword_score =>
      let total_score :=
        skills_score.score * weights.skills_match
          + experience_score * weights.experience_match
          + education_score * weights.education_match
          + keyword_score * weights.keyword_match
          + dynamic_keyword_score.score * weights.dynamic_keyword_match
      let sk := skillsAnalysis skills_score
      let ex := experienceAnalysis experience_score job_data.experience_years
          candidate_data.experience.estimated_years
      let ed := educationAnalysis education_score job_data.education_level
      let dy := dynamicAnalysis dynamic_keyword_score
      { total_score := pyRound2 (total_score * 100)
        breakdown :=
          { skills := pyRound2 (skills_score.score * 100)
            experience := pyRound2 (experience_score * 100)
            education := pyRound2 (education_score * 100)
            keywords := pyRound2 (keyword_score * 100)
            dynamic_keywords := pyRound2 (dynamic_keyword_score.score * 100) }
        strengths := sk.1 ++ ex.1 ++ ed.1 ++ dy.1
        gaps := sk.2 ++ ex.2 ++ ed.2 ++ dy.2 })

/-! ## `match_candidates_enhanced` -/

/-- One element of the `matches` list. -/
structure MatchEntry where
  candidate : Candidate
  match_score : ℚ
  match_breakdown : Breakdown
  strengths : List String
  gaps : List String
  deriving Repr, DecidableEq

/-- The accumulation loop of `match_candidates_enhanced`, before sorting:
one entry per candidate, in input order.  `none` models a propagated
exception. -/
def buildMatches (job_data : JobData) : List Candidate → Option (List MatchEntry)
  | [] => some []
  | c :: cs =>
    match calcEnhancedMatchScore job_data c.parsed_data, buildMatches job_data cs with
    | some ms, some rest =>
      some ({ candidate := c, match_score := ms.total_score,
              match_breakdown := ms.breakdown, strengths := ms.strengths,
              gaps := ms.gaps } :: rest)
    | _, _ => none

/-- `MatchingEngine.match_candidates_enhanced`: score every candidate, then
`matches.sort(key=lambda x: x['match_score'], reverse=True)` — a stable
descending sort. -/
def matchCandidatesEnhanced (job_data : JobData) (candidates : List Candidate) :
    Option (List MatchEntry) :=
  (buildMatches job_data candidates).map (sortDescBy (fun m => m.match_score))

/-! ## `generate_suggestions` -/

structure Suggestion where
  category : String
  priority : String
  suggestion : String
  impact : String
  deriving Repr, DecidableEq

/-- Python truthiness of an optional string: `None` and `""` are falsy. -/
def optStrFalsy : Option String → Bool
  | none => true
  | some s => s = ""

/-- `MatchingEngine.generate_suggestions`.  `none` models the
`ZeroDivisionError` raised by `unique_words / total_words` when the stored
`total_words` is 0: the `.get('total_words', 1)` default only covers a
missing key, which well-formed profiles always carry. -/
def generateSuggestions (candidate_data : CandidateData) : Option (List Suggestion) :=
  let skills_count := candidate_data.skills.skill_count
  let s1 : List Suggestion :=
    if skills_count < 5 then
      [{ category := "Skills", priority := "Critical",
         suggestion := "Add more technical skills to your resume. Include programming languages, frameworks, tools, and technologies you have experience with.",
         impact := "Significantly improves keyword matching and demonstrates technical competency" }]
    else if skills_count < 10 then
      [{ category := "Skills", priority := "High",
         suggestion := "Expand your skills section with more specialized technologies and emerging skills relevant to your field.",
         impact := "Helps you stand out for advanced positions and increases ATS matching" }]
    else []
  let exp_years := candidate_data.experience.estimated_years
  let title_count := candidate_data.experience.title_count
  let s2 : List Suggestion :=
    if exp_years < 2 then
      [{ category := "Experience", priority := "High",
         suggestion := "Strengthen your experience section by including internships, projects, volunteer work, or part-time roles.",
         impact := "Demonstrates practical application of skills and increases experience score" }]
    else []
  let s3 : List Suggestion :=
    if title_count < 2 then
      [{ category := "Experience", priority := "Medium",
         suggestion := "Use more specific job titles and include quantifiable achievements with metrics and numbers.",
         impact := "Makes your experience more concrete and measurable for recruiters" }]
    else []
  let s4 : List Suggestion :=
    if candidate_data.education.degree_count = 0 then
      [{ category := "Education", priority := "Medium",
         suggestion := "Include your educational background, certifications, or relevant coursework.",
         impact := "Meets basic educational requirements and improves credibility" }]
    else []
  let word_count := candidate_data.summary_stats.word_count
  let s5 : List Suggestion :=
    if word_count < 200 then
      [{ category := "Content", priority := "Critical",
         suggestion := "Expand your resume with more detailed descriptions of your experience and achievements.",
         impact := "Provides more context for ATS matching and gives recruiters better insights" }]
    else if 800 < word_count then
      [{ category := "Content", priority := "Low",
         suggestion := "Consider condensing your resume to focus on the most relevant and recent experiences.",
         impact := "Improves readability and focuses attention on key qualifications" }]
    else []
  let ci := candidate_data.contact_info
  let s6 : List Suggestion :=
    (if optStrFalsy ci.email then
      [{ category := "Contact Info", priority := "Critical",
         suggestion := "Add a professional email address to your resume.",
         impact := "Essential for recruiters to contact you - missing email is a major red flag" }]
    else [])
    ++ (if optStrFalsy ci.phone then
      [{ category := "Contact Info", priority := "High",
         suggestion := "Include a phone number with proper formatting.",
         impact := "Provides additional contact method and shows professionalism" }]
    else [])
    ++ (if optStrFalsy ci.linkedin then
      [{ category := "Contact Info", priority := "High",
         suggestion := "Include your LinkedIn profile URL.",
         impact := "Allows recruiters to see your professional network and endorsements" }]
    else [])
  let unique_words := candidate_data.keywords.unique_words
  let total_words := candidate_data.keywords.total_words
  if total_words = 0 then none
  else
    let s7 : List Suggestion :=
      if (unique_words : ℚ) / total_words < 3/10 then
        [{ category := "Keywords", priority := "Medium",
           suggestion := "Use more varied vocabulary and industry-specific terms throughout your resume.",
           impact := "Improves matching with diverse job descriptions and shows depth of knowledge" }]
      else []
    some (s1 ++ s2 ++ s3 ++ s4 ++ s5 ++ s6 ++ s7)

/-! ## `ResumeParser._extract_experience`: the year scan

`re.findall(r'(19|20)\d{2}', text)` — the pattern contains a capture
group, so `findall` returns the *captured group* of every match: the
two-character century prefix `"19"` or `"20"`, never the full year. -/

/-- The left-to-right non-overlapping scan of `re.findall`, returning the
group-1 capture (the century prefix) of every match of `(19|20)\d{2}`:
on a match the scan continues after its four characters, otherwise it
advances one character. -/
def scanYearCaptures : List Char → List String
  | a :: b :: c :: d :: rest =>
    if ((a = '1' && b = '9') || (a = '2' && b = '0')) && isAsciiDigit c && isAsciiDigit d then
      String.mk [a, b] :: scanYearCaptures rest
    else scanYearCaptures (b :: c :: d :: rest)
  | _ => []

/-- Python `int` on a (nonempty) digit string. -/
def pyIntOfDigits (s : String) : Int :=
  s.toList.foldl (fun n c => n * 10 + ((c.toNat : Int) - 48)) 0

/-- Python `max` over a nonempty int list (`max(l)` = fold of binary max). -/
def maxIntD (x : Int) (l : List Int) : Int := l.foldr max x

/-- Python `min` over a nonempty int list. -/
def minIntD (x : Int) (l : List Int) : Int := l.foldr min x

/-- The `estimated_years` computation of `ResumeParser._extract_experience`:
`max(years_int) - min(years_int)` when more than one year string was
found, else 0. -/
def estimatedYears (text : String) : Int :=
  match scanYearCaptures text.toList with
  | [] => 0
  | y :: ys =>
    if 1 < (y :: ys).length then
      let years_int := (y :: ys).map pyIntOfDigits
      maxIntD (pyIntOfDigits y) years_int - minIntD (pyIntOfDigits y) years_int
    else 0

/-- Claim-side definition, following the claim C4 word for word: collect
the full 4-digit `19xx`/`20xx` years, and return `max - min` when at least
two year occurrences exist, else 0. -/
def claimEstimatedYears (text : String) : Int :=
  match claimScanFullYears text.toList with
  | [] => 0
  | y :: ys =>
    if 1 < (y :: ys).length then
      maxIntD y (y :: ys) - minIntD y (y :: ys)
    else 0
where
  /-- The full 4-digit years found in the text (same scan positions,
  whole match instead of the capture group). -/
  claimScanFullYears : List Char → List Int
    | a :: b :: c :: d :: rest =>
      if ((a = '1' && b = '9') || (a = '2' && b = '0')) && isAsciiDigit c && isAsciiDigit d then
        pyIntOfDigits (String.mk [a, b, c, d]) :: claimScanFullYears rest
      else claimScanFullYears (b :: c :: d :: rest)
    | _ => []

/-! ## `ResumeParser._extract_contact_info`: the phone regex

`phone_pattern = r'(\+?\d{1,3}[-.\s]?)?\(?\d{3}\)?[-.\s]?\d{3}[-.\s]?\d{4}'`
followed by `re.findall` and `''.join(phones[0])`.  The pattern contains
exactly one capture group — the optional country-code prefix — so
`findall` returns only that group per match (the empty string when the
group did not participate), and the extracted "phone" is the group of the
first match.  The matcher below reproduces the leftmost-first backtracking
search of `re`: greedy optional elements try the consuming alternative
first; `\d{1,3}` tries 3, 2, then 1 digits. -/

/-- The separator class `[-.\s]`. -/
def isSepChar (c : Char) : Bool := c = '-' || c = '.' || isPySpace c

/-- Consume exactly `n` digits. -/
def takeDigits : Nat → List Char → Option (List Char × List Char)
  | 0, l => some ([], l)
  | n + 1, c :: t =>
    if isAsciiDigit c then
      (takeDigits n t).map (fun p => (c :: p.1, p.2))
    else none
  | _ + 1, [] => none

/-- Greedy optional single character: try consuming it first, then not
consuming; the consumed characters are passed to the continuation. -/
def tryOptChar {α : Type} (p : Char → Bool) (l : List Char)
    (k : List Char → List Char → Option α) : Option α :=
  match l with
  | [] => k [] []
  | c :: t =>
    if p c then
      match k [c] t with
      | some r => some r
      | none => k [] (c :: t)
    else k [] (c :: t)

/-- Greedy `\d{1,3}`: try 3, then 2, then 1 digits. -/
def tryDigits13 {α : Type} (l : List Char) (k : List Char → List Char → Option α) : Option α :=
  match takeDigits 3 l with
  | some p =>
    match k p.1 p.2 with
    | some r => some r
    | none => tryDigits13' l k
  | none => tryDigits13' l k
where
  tryDigits13' (l : List Char) (k : List Char → List Char → Option α) : Option α :=
    match takeDigits 2 l with
    | some p =>
      match k p.1 p.2 with
      | some r => some r
      | none =>
        match takeDigits 1 l with
        | some q => k q.1 q.2
        | none => none
    | none =>
      match takeDigits 1 l with
      | some q => k q.1 q.2
      | none => none

/-- The mandatory tail `\(?\d{3}\)?[-.\s]?\d{3}[-.\s]?\d{4}` of the phone
pattern; returns `some` iff it matches at the head of `l`. -/
def phoneRest (l : List Char) : Option Unit :=
  tryOptChar (fun c => c = '(') l fun _ s1 =>
  (takeDigits 3 s1).bind fun p2 =>
  tryOptChar (fun c => c = ')') p2.2 fun _ s3 =>
  tryOptChar isSepChar s3 fun _ s4 =>
  (takeDigits 3 s4).bind fun p5 =>
  tryOptChar isSepChar p5.2 fun _ s6 =>
  (takeDigits 4 s6).map fun _ => ()

/-- Try the whole phone pattern at the head of `l`, returning the capture
of group 1 on success.  The optional group tries to participate first
(greedy `(...)?`); inside it, `\+?`, `\d{1,3}` and `[-.\s]?` backtrack in
greedy order.  When the group does not participate the capture is the
empty string, exactly as `re.findall` reports an unmatched group. -/
def phoneMatchAt (l : List Char) : Option String :=
  let withGroup : Option String :=
    tryOptChar (fun c => c = '+') l fun plus s1 =>
    tryDigits13 s1 fun ds s2 =>
    tryOptChar isSepChar s2 fun sep s3 =>
    (phoneRest s3).map fun _ => String.mk (plus ++ ds ++ sep)
  match withGroup with
  | some r => some r
  | none => (phoneRest l).map fun _ => ""

/-- First match of the scan (leftmost starting position at which the
pattern matches) — `phones[0]` of `re.findall`. -/
def firstPhoneCapture : List Char → Option String
  | [] => none
  | c :: t =>
    match phoneMatchAt (c :: t) with
    | some cap => some cap
    | none => firstPhoneCapture t

/-- The phone field of `ResumeParser._extract_contact_info`:
`''.join(phones[0]) if phones else None`; with a single capture group,
`phones[0]` is a plain string and the join is the identity. -/
def extractPhone (text : String) : Option String := firstPhoneCapture text.toList

/-! ## Spec-side definitions used for refinement comparisons -/

/-- Claim C2 side: the asserted no-dynamic-mode total,
`(0.40*skills + 0.25*experience + 0.15*education + 0.20*keywords)` as a
percentage, built from the same sub-scores as the engine. -/
def claimNoDynamicTotal (job_data : JobData) (candidate_data : CandidateData) : ℚ :=
  pyRound2
    (((calcSkillsMatchEnhanced job_data.required_skills candidate_data.skills.all_skills).score
          * (40/100)
        + calcExperienceMatch job_data.experience_years
            candidate_data.experience.estimated_years * (25/100)
        + calcEducationMatch job_data.education_level candidate_data.education.degrees
            * (15/100)
        + calcKeywordMatchEnhanced job_data.description candidate_data.raw_text * (20/100))
      * 100)

/-- Claim C7 side: the stop-word-filtered alphabetic tokens of at least 3
characters, the keyword notion the claim asserts. -/
def claimKeywordTokens (text : String) : List String :=
  (alphaTokensMin 3 (pyLower text)).filter (fun w => !stopWords.contains w)

/-- Claim C7 side: the asserted keyword-match score, parameterized by the
keyword extractor — the sum over job keywords of
`min(f_job, f_candidate)` divided by the sum of `f_job`, clamped to
`[0,1]`, defaulting to 1.0 on an empty job description (or when the
description yields no keywords at all, so that the sum is defined). -/
def claimKeywordScoreWith (tokensOf : String → List String)
    (job_description candidate_text : String) : ℚ :=
  if job_description = "" then 1
  else
    let jks := tokensOf job_description
    if jks = [] then 1
    else
      let cks := tokensOf candidate_text
      min 1 ((∑ w in jks.toFinset, ((min (jks.count w) (cks.count w) : ℕ) : ℚ)) / jks.length)

/-! ## Concrete inputs used by witnesses and counterexamples -/

/-- A minimal well-formed candidate profile, as parsed from an empty
document: every extraction yields its empty/zero structure. -/
def bareCandData : CandidateData :=
  { raw_text := ""
    contact_info := { email := none, phone := none, linkedin := none }
    skills := { all_skills := [], skill_count := 0 }
    experience := { estimated_years := 0, title_count := 0 }
    education := { degrees := [], degree_count := 0 }
    keywords := { total_words := 0, unique_words := 0 }
    summary_stats := { word_count := 0 } }

/-- A candidate whose resume text mentions python. -/
def pythonCandData : CandidateData :=
  { bareCandData with raw_text := "python developer" }

/-- A job with one (blank-free) required skill and nothing else; its
`dynamic_keywords` list is empty. -/
def jobSkillsOnly : JobData :=
  { description := "", required_skills := ["python"], experience_years := 0,
    education_level := "", dynamic_keywords := [] }

/-- A job with no requirements at all. -/
def jobTrivial : JobData :=
  { description := "", required_skills := [], experience_years := 0,
    education_level := "", dynamic_keywords := [] }

/-- A job carrying one dynamic keyword as `extract_job_keywords` would
produce it. -/
def jobDyn : JobData :=
  { description := "", required_skills := [], experience_years := 0,
    education_level := "",
    dynamic_keywords := [{ keyword := "python", score := 2, frequency := 1, type := "single" }] }

def candA : Candidate := { ident := 1, parsed_data := bareCandData }

def candB : Candidate := { ident := 2, parsed_data := bareCandData }

/-- The unsorted match list of the C1 witness run. -/
def preWitness : List MatchEntry :=
  (buildMatches jobTrivial [candA, candB]).getD []

/-- The result of the C1 witness run. -/
def msWitness : List MatchEntry :=
  (matchCandidatesEnhanced jobTrivial [candA, candB]).getD []

/-- The match score of the C3 witness run. -/
def scoreWitness : MatchScore :=
  (calcEnhancedMatchScore jobDyn pythonCandData).getD
    { total_score := 0,
      breakdown := { skills := 0, experience := 0, education := 0, keywords := 0,
                     dynamic_keywords := 0 },
      strengths := [], gaps := [] }

/-! # Theorems

First the reusable lemmas about the embedding (sorting, counters,
rounding, sub-score bounds), then one theorem per claim, each with its
witness where the statement carries hypotheses. -/

section SortLemmas

variable {α β : Type} [LinearOrder β] (key : α → β)

theorem length_insertDescBy (x : α) (l : List α) :
    (insertDescBy key x l).length = l.length + 1 := by
  induction l with
  | nil => rfl
  | cons y ys ih =>
    unfold insertDescBy
    by_cases h : key x < key y
    · simp [h, ih]
    · simp [h]

theorem length_sortDescBy (l : List α) : (sortDescBy key l).length = l.length := by
  induction l with
  | nil => rfl
  | cons x xs ih => unfold sortDescBy; rw [length_insertDescBy, ih, List.length_cons]

theorem mem_insertDescBy (a x : α) (l : List α) :
    a ∈ insertDescBy key x l ↔ a = x ∨ a ∈ l := by
  induction l with
  | nil => simp [insertDescBy]
  | cons y ys ih =>
    unfold insertDescBy
    by_cases h : key x < key y
    · simp only [if_pos h, List.mem_cons, ih]
      tauto
    · simp only [if_neg h, List.mem_cons]

theorem sorted_insertDescBy (x : α) (l : List α)
    (h : l.Pairwise (fun a b => key b ≤ key a)) :
    (insertDescBy key x l).Pairwise (fun a b => key b ≤ key a) := by
  induction l with
  | nil => simp [insertDescBy]
  | cons y ys ih =>
    rw [List.pairwise_cons] at h
    obtain ⟨hy, hys⟩ := h
    unfold insertDescBy
    by_cases hxy : key x < key y
    · rw [if_pos hxy, List.pairwise_cons]
      refine ⟨fun a ha => ?_, ih hys⟩
      rcases (mem_insertDescBy key a x ys).1 ha with rfl | hmem
      · exact le_of_lt hxy
      · exact hy a hmem
    · rw [if_neg hxy, List.pairwise_cons]
      push_neg at hxy
      refine ⟨fun a ha => ?_, List.Pairwise.cons hy hys⟩
      rcases List.mem_cons.1 ha with rfl | hmem
      · exact hxy
      · exact le_trans (hy a hmem) hxy

theorem sorted_sortDescBy (l : List α) :
    (sortDescBy key l).Pairwise (fun a b => key b ≤ key a) := by
  induction l with
  | nil => simp [sortDescBy]
  | cons x xs ih => exact sorted_insertDescBy key x _ ih

theorem filter_insertDescBy (x : α) (l : List α) (v : β) :
    (insertDescBy key x l).filter (fun a => key a = v)
      = if key x = v then x :: l.filter (fun a => key a = v)
        else l.filter (fun a => key a = v) := by
  induction l with
  | nil =>
    by_cases h : key x = v <;> simp [insertDescBy, List.filter_cons, h]
  | cons y ys ih =>
    unfold insertDescBy
    by_cases hxy : key x < key y
    · rw [if_pos hxy]
      by_cases hy : key y = v
      · have hx : ¬ key x = v := fun hc => absurd hy (by rw [← hc]; exact ne_of_gt hxy)
        simp [List.filter_cons, hy, hx, ih]
      · simp [List.filter_cons, hy, ih]
    · rw [if_neg hxy]
      by_cases hx : key x = v <;> simp [List.filter_cons, hx]

theorem filter_sortDescBy (l : List α) (v : β) :
    (sortDescBy key l).filter (fun a => key a = v) = l.filter (fun a => key a = v) := by
  induction l with
  | nil => rfl
  | cons x xs ih =>
    unfold sortDescBy
    rw [filter_insertDescBy, ih, List.filter_cons]
    by_cases hx : key x = v <;> simp [hx]

end SortLemmas

section BuildMatchesLemmas

theorem buildMatches_length (job_data : JobData) :
    ∀ (cs : List Candidate) (l : List MatchEntry),
      buildMatches job_data cs = some l → l.length = cs.length := by
  intro cs
  induction cs with
  | nil => intro l h; simp [buildMatches] at h; simp [← h]
  | cons c cs ih =>
    intro l h
    unfold buildMatches at h
    cases hs : calcEnhancedMatchScore job_data c.parsed_data with
    | none => rw [hs] at h; exact absurd h (by simp)
    | some ms =>
      rw [hs] at h
      cases hr : buildMatches job_data cs with
      | none => rw [hr] at h; exact absurd h (by simp)
      | some rest =>
        rw [hr] at h
        simp only [Option.some.injEq] at h
        rw [← h]
        simp [ih rest hr]

theorem buildMatches_candidates (job_data : JobData) :
    ∀ (cs : List Candidate) (l : List MatchEntry),
      buildMatches job_data cs = some l → l.map (fun m => m.candidate) = cs := by
  intro cs
  induction cs with
  | nil => intro l h; simp [buildMatches] at h; simp [← h]
  | cons c cs ih =>
    intro l h
    unfold buildMatches at h
    cases hs : calcEnhancedMatchScore job_data c.parsed_data with
    | none => rw [hs] at h; exact absurd h (by simp)
    | some ms =>
      rw [hs] at h
      cases hr : buildMatches job_data cs with
      | none => rw [hr] at h; exact absurd h (by simp)
      | some rest =>
        rw [hr] at h
        simp only [Option.some.injEq] at h
        rw [← h]
        simp [ih rest hr]

end BuildMatchesLemmas

/-- **C1.** For every job and candidate list on which scoring succeeds,
`match_candidates_enhanced` returns one entry per input candidate (the
pre-sort list `pre` carries them in input order), the result is sorted
non-increasing by `match_score`, and for every score value the entries
holding it appear in the same relative order as in the input list
(stability of the reverse sort). -/
theorem match_results_sorted_stable_c1 (job_data : JobData) (candidates : List Candidate)
    (pre ms : List MatchEntry)
    (hpre : buildMatches job_data candidates = some pre)
    (hms : matchCandidatesEnhanced job_data candidates = some ms) :
    ms.length = candidates.length
      ∧ ms.Pairwise (fun a b => b.match_score ≤ a.match_score)
      ∧ pre.map (fun m => m.candidate) = candidates
      ∧ ∀ v : ℚ, ms.filter (fun m => m.match_score = v)
          = pre.filter (fun m => m.match_score = v) := by
  have hsort : ms = sortDescBy (fun m => m.match_score) pre := by
    unfold matchCandidatesEnhanced at hms
    rw [hpre] at hms
    simpa using hms.symm
  subst hsort
  refine ⟨?_, ?_, ?_, ?_⟩
  · rw [length_sortDescBy]
    exact buildMatches_length job_data candidates pre hpre
  · exact sorted_sortDescBy _ pre
  · exact buildMatches_candidates job_data candidates pre hpre
  · intro v
    exact filter_sortDescBy _ pre v

/-- Witness for C1 at a concrete two-candidate pool whose members tie at
score 100: length, sortedness, input order of the pre-sort list, and the
tie class in input order. -/
theorem match_results_sorted_stable_c1_witness :
    msWitness.length = [candA, candB].length
      ∧ msWitness.Pairwise (fun a b => b.match_score ≤ a.match_score)
      ∧ preWitness.map (fun m => m.candidate) = [candA, candB]
      ∧ msWitness.filter (fun m => m.match_score = 100)
          = preWitness.filter (fun m => m.match_score = 100) :=
  ⟨(match_results_sorted_stable_c1 jobTrivial [candA, candB] preWitness msWitness rfl rfl).1,
   (match_results_sorted_stable_c1 jobTrivial [candA, candB] preWitness msWitness rfl rfl).2.1,
   (match_results_sorted_stable_c1 jobTrivial [candA, candB] preWitness msWitness rfl rfl).2.2.1,
   (match_results_sorted_stable_c1 jobTrivial [candA, candB] preWitness msWitness rfl rfl).2.2.2 100⟩

/-- `round(x, 2)` of an integer-valued rational is itself. -/
theorem pyRound2_intVal (n : ℤ) : pyRound2 ((n : ℚ)) = n := by
  unfold pyRound2
  have h : ((n : ℚ) * 100) = ((n * 100 : ℤ) : ℚ) := by push_cast; ring
  rw [h, round_intCast]
  push_cast
  field_simp

/-- **C2, counterexample.** A job with an empty `dynamic_keywords` list on
which the engine total (65.0: the single weight set with the dynamic
score defaulting to 1.0) differs from the no-dynamic-mode weighted sum
the claim asserts (60.0 with weights 0.40/0.25/0.15/0.20): there is no
separate no-dynamic weight mode in the code. -/
theorem no_dynamic_weights_c2_counterexample :
    jobSkillsOnly.dynamic_keywords = []
      ∧ (calcEnhancedMatchScore jobSkillsOnly bareCandData).map (fun ms => ms.total_score)
          = some 65
      ∧ claimNoDynamicTotal jobSkillsOnly bareCandData = 60
      ∧ (calcEnhancedMatchScore jobSkillsOnly bareCandData).map (fun ms => ms.total_score)
          ≠ some (claimNoDynamicTotal jobSkillsOnly bareCandData) := by
  have e1 : (calcEnhancedMatchScore jobSkillsOnly bareCandData).map (fun ms => ms.total_score)
      = some (pyRound2 (((65 : ℤ) : ℚ))) := rfl
  have e2 : claimNoDynamicTotal jobSkillsOnly bareCandData = pyRound2 (((60 : ℤ) : ℚ)) := rfl
  have v1 : (calcEnhancedMatchScore jobSkillsOnly bareCandData).map (fun ms => ms.total_score)
      = some 65 := by rw [e1, pyRound2_intVal]; norm_num
  have v2 : claimNoDynamicTotal jobSkillsOnly bareCandData = 60 := by
    rw [e2, pyRound2_intVal]; norm_num
  refine ⟨rfl, v1, v2, ?_⟩
  rw [v1, v2]
  norm_num

/-- **C2, amended.** For every job whose `dynamic_keywords` list is empty,
the dynamic sub-score defaults to 1.0 and the total is the percentage of
`0.35*skills + 0.20*experience + 0.15*education + 0.20*keywords + 0.10`;
the engine has a single weight set, and it sums to exactly 1.0. -/
theorem no_dynamic_total_c2_amended (job_data : JobData) (candidate_data : CandidateData)
    (h : job_data.dynamic_keywords = []) :
    (calcEnhancedMatchScore job_data candidate_data).map (fun ms => ms.total_score)
      = some (pyRound2
          (((calcSkillsMatchEnhanced job_data.required_skills
                  candidate_data.skills.all_skills).score * weights.skills_match
              + calcExperienceMatch job_data.experience_years
                  candidate_data.experience.estimated_years * weights.experience_match
              + calcEducationMatch job_data.education_level
                  candidate_data.education.degrees * weights.education_match
              + calcKeywordMatchEnhanced job_data.description candidate_data.raw_text
                  * weights.keyword_match
              + 1 * weights.dynamic_keyword_match) * 100))
    ∧ weightsList.sum = 1 := by
  constructor
  · unfold calcEnhancedMatchScore
    rw [h]
    simp [calcDynamicKeywordMatch]
  · norm_num [weightsList, weights]

/-- Witness for C2 (amended) at the counterexample job and the bare
candidate. -/
theorem no_dynamic_total_c2_amended_witness :
    (calcEnhancedMatchScore jobSkillsOnly bareCandData).map (fun ms => ms.total_score)
      = some (pyRound2
          (((calcSkillsMatchEnhanced jobSkillsOnly.required_skills
                  bareCandData.skills.all_skills).score * weights.skills_match
              + calcExperienceMatch jobSkillsOnly.experience_years
                  bareCandData.experience.estimated_years * weights.experience_match
              + calcEducationMatch jobSkillsOnly.education_level
                  bareCandData.education.degrees * weights.education_match
              + calcKeywordMatchEnhanced jobSkillsOnly.description bareCandData.raw_text
                  * weights.keyword_match
              + 1 * weights.dynamic_keyword_match) * 100))
    ∧ weightsList.sum = 1 :=
  no_dynamic_total_c2_amended jobSkillsOnly bareCandData rfl

/-- **C4 (code bug).** The year regex `(19|20)\d{2}` contains a capture
group, so `re.findall` returns only the century prefixes: on the text
"2018 2022" the scan yields `["20", "20"]` and `estimated_years` is 0,
not the `max - min = 4` the claim (and the spec scenario) state; the
claim-side computation over the full 4-digit years gives 4.  A single
year "2020" gives 0 on both sides. -/
theorem estimated_years_c4_eval :
    estimatedYears "2018 2022" = 0
      ∧ claimEstimatedYears "2018 2022" = 4
      ∧ estimatedYears "2020" = 0
      ∧ claimEstimatedYears "2020" = 0
      ∧ scanYearCaptures "2018 2022".toList = ["20", "20"] := by
  refine ⟨by decide, by decide, by decide, by decide, by decide⟩

/-- **C5 (code bug).** On the well-formed profile parsed from an empty
document (`total_words = 0` stored in the `keywords` record),
`generate_suggestions` divides `unique_words / total_words` and raises
`ZeroDivisionError` (modelled by `none`): the `.get('total_words', 1)`
default only guards a missing key, not a stored 0. -/
theorem generate_suggestions_c5_eval :
    bareCandData.keywords.total_words = 0 ∧ generateSuggestions bareCandData = none :=
  ⟨rfl, rfl⟩

/-- **C6 (code bug).** The phone pattern has exactly one capture group —
the optional country-code prefix — so `re.findall` returns that group per
match and the extracted phone for "Call me at 415-555-0100" is the empty
string, not the "(415) 555-0100" the claim states; no digit-count
validation or `(XXX) XXX-XXXX` reformatting exists in the code. -/
theorem phone_extraction_c6_eval :
    extractPhone "Call me at 415-555-0100" = some ""
      ∧ extractPhone "Call me at 415-555-0100" ≠ some "(415) 555-0100" := by
  refine ⟨by decide, by decide⟩

/-- **C8.** The education score is 1.0 for a blank required level;
otherwise, with the candidate level the maximum ordinal over the degree
list (0 when none is recognized), the cases in order are: 1.0 when the
candidate level reaches the required level, exactly 0.3 when the
candidate level is 0 (and below the required level), and
`min(1, candidate/required)` otherwise. -/
theorem education_score_c8 (required_education : String) (candidate_degrees : List String) :
    (pyStrip required_education = "" →
        calcEducationMatch required_education candidate_degrees = 1)
    ∧ (pyStrip required_education ≠ "" →
        getEducationLevel required_education ≤ maxNat (candidate_degrees.map getEducationLevel) →
        calcEducationMatch required_education candidate_degrees = 1)
    ∧ (pyStrip required_education ≠ "" →
        maxNat (candidate_degrees.map getEducationLevel) < getEducationLevel required_education →
        maxNat (candidate_degrees.map getEducationLevel) = 0 →
        calcEducationMatch required_education candidate_degrees = 3/10)
    ∧ (pyStrip required_education ≠ "" →
        maxNat (candidate_degrees.map getEducationLevel) < getEducationLevel required_education →
        maxNat (candidate_degrees.map getEducationLevel) ≠ 0 →
        calcEducationMatch required_education candidate_degrees
          = min 1 ((maxNat (candidate_degrees.map getEducationLevel) : ℚ)
              / (getEducationLevel required_education : ℚ))) := by
  refine ⟨?_, ?_, ?_, ?_⟩
  · intro h
    simp [calcEducationMatch, h]
  · intro h hle
    simp [calcEducationMatch, h, hle]
  · intro h hlt h0
    have hr0 : getEducationLevel required_education ≠ 0 := by omega
    simp [calcEducationMatch, h, not_le.mpr hlt, h0, hr0]
  · intro h hlt h0
    simp [calcEducationMatch, h, not_le.mpr hlt, h0]

/-- Witness for C8: required level "bachelor" with no recognized degree
scores exactly 0.3. -/
theorem education_score_c8_witness : calcEducationMatch "bachelor" [] = 3/10 :=
  (education_score_c8 "bachelor" []).2.2.1 (by decide) (by decide) (by decide)

/-- **C10.** A non-empty required-skills list consisting only of blank
(empty or whitespace-only) entries yields a skills score of 0 — every
entry is skipped, the non-blank count is 0 and the ratio guard returns
0 — unlike the genuinely empty list, which scores 1.0. -/
theorem blank_required_skills_c10 (required_skills candidate_skills : List String)
    (hne : required_skills ≠ [])
    (hblank : ∀ s ∈ required_skills, pyStrip s = "") :
    (calcSkillsMatchEnhanced required_skills candidate_skills).score = 0
      ∧ (calcSkillsMatchEnhanced required_skills candidate_skills).total_required = 0
      ∧ (calcSkillsMatchEnhanced [] candidate_skills).score = 1 := by
  have hfilter : required_skills.filter nonBlank = [] := by
    rw [List.filter_eq_nil_iff]
    intro a ha
    simp [nonBlank, hblank a ha]
  refine ⟨?_, ?_, by simp [calcSkillsMatchEnhanced]⟩ <;>
    simp [calcSkillsMatchEnhanced, hne, hfilter]

/-- Witness for C10 at a two-entry all-blank required list. -/
theorem blank_required_skills_c10_witness :
    (calcSkillsMatchEnhanced [" ", ""] ["python"]).score = 0
      ∧ (calcSkillsMatchEnhanced [" ", ""] ["python"]).total_required = 0
      ∧ (calcSkillsMatchEnhanced [] ["python"]).score = 1 :=
  blank_required_skills_c10 [" ", ""] ["python"] (by decide) (by decide)

section ScoreBounds

theorem skills_score_bounds (required_skills candidate_skills : List String) :
    0 ≤ (calcSkillsMatchEnhanced required_skills candidate_skills).score
      ∧ (calcSkillsMatchEnhanced required_skills candidate_skills).score ≤ 1 := by
  unfold calcSkillsMatchEnhanced
  by_cases h : required_skills = []
  · simp [h]
  · rw [if_neg h]
    simp only
    have hMT : (required_skills.filter (fun r =>
          nonBlank r && skillMatches (candidate_skills.map fun s => pyStrip (pyLower s))
            (pyStrip (pyLower r)))).length
        ≤ (required_skills.filter nonBlank).length := by
      rw [← List.countP_eq_length_filter, ← List.countP_eq_length_filter]
      exact List.countP_mono_left (fun a _ hpa => ((Bool.and_eq_true _ _).mp hpa).1)
    by_cases hT : 0 < (required_skills.filter nonBlank).length
    · rw [if_pos hT]
      constructor
      · positivity
      · rw [div_le_one (by exact_mod_cast hT)]
        exact_mod_cast hMT
    · rw [if_neg hT]
      norm_num

theorem experience_score_bounds (required_years candidate_years : Nat) :
    0 ≤ calcExperienceMatch required_years candidate_years
      ∧ calcExperienceMatch required_years candidate_years ≤ 1 := by
  unfold calcExperienceMatch
  by_cases h0 : required_years = 0
  · simp [h0]
  · rw [if_neg h0]
    by_cases hge : required_years ≤ candidate_years
    · rw [if_pos hge]
      by_cases h2 : candidate_years ≤ required_years * 2
      · rw [if_pos h2]
        norm_num
      · rw [if_neg h2]
        norm_num
    · rw [if_neg hge]
      have hrpos : (0:ℚ) < required_years := by
        exact_mod_cast Nat.pos_of_ne_zero h0
      constructor
      · exact le_trans (by norm_num) (le_max_left (1/10) _)
      · apply max_le (by norm_num)
        rw [div_le_one hrpos]
        exact_mod_cast le_of_lt (not_le.mp hge)

theorem education_score_bounds (required_education : String) (candidate_degrees : List String) :
    0 ≤ calcEducationMatch required_education candidate_degrees
      ∧ calcEducationMatch required_education candidate_degrees ≤ 1 := by
  unfold calcEducationMatch
  by_cases h : pyStrip required_education = ""
  · simp [h]
  · rw [if_neg h]
    simp only
    by_cases hle : getEducationLevel required_education
        ≤ maxNat (candidate_degrees.map getEducationLevel)
    · simp [hle]
    · rw [if_neg hle]
      by_cases h0 : maxNat (candidate_degrees.map getEducationLevel) = 0
      · rw [if_pos h0]
        norm_num
      · rw [if_neg h0]
        refine ⟨le_min (by norm_num) (by positivity), min_le_left _ _⟩

theorem keyword_score_bounds (job_description candidate_text : String) :
    0 ≤ calcKeywordMatchEnhanced job_description candidate_text
      ∧ calcKeywordMatchEnhanced job_description candidate_text ≤ 1 := by
  unfold calcKeywordMatchEnhanced
  by_cases h : job_description = ""
  · simp [h]
  · rw [if_neg h]
    by_cases hk : extractMeaningfulKeywords job_description = []
    · simp [hk]
    · rw [if_neg hk]
      simp only
      have htot : (0:ℚ) ≤ ((counterItems (extractMeaningfulKeywords job_description)).map
          (fun p => ((min p.2 (lookupCount
              (counterItems (extractMeaningfulKeywords candidate_text)) p.1) : ℕ) : ℚ)
            / p.2 * p.2)).sum := by
        apply List.sum_nonneg
        intro x hx
        obtain ⟨p, _, rfl⟩ := List.mem_map.mp hx
        positivity
      refine ⟨le_min (by norm_num) ?_, min_le_left _ _⟩
      by_cases hm : (0:ℚ) < ((counterItems (extractMeaningfulKeywords job_description)).map
          (fun p => (p.2 : ℚ))).sum
      · rw [if_pos hm]
        exact div_nonneg htot (le_of_lt hm)
      · rw [if_neg hm]

theorem dynFold_bounds (candidate_text_lower : String) (dks : List DynKeyword) :
    ∀ (m : Nat) (tot maxp : ℚ) (st : Nat × ℚ × ℚ),
      (∀ e ∈ dks, 0 ≤ e.score) →
      dynFold candidate_text_lower dks (m, tot, maxp) = some st →
      0 ≤ tot → tot ≤ maxp → 0 ≤ st.2.1 ∧ st.2.1 ≤ st.2.2 := by
  induction dks with
  | nil =>
    intro m tot maxp st _ h h0 hle
    unfold dynFold at h
    cases h
    exact ⟨h0, hle⟩
  | cons e rest ih =>
    intro m tot maxp st hsc h h0 hle
    unfold dynFold at h
    simp only at h
    by_cases hc : containsSub candidate_text_lower (pyLower e.keyword)
    · rw [if_pos hc] at h
      by_cases hf : e.frequency = 0
      · rw [if_pos hf] at h
        cases h
      · rw [if_neg hf] at h
        have hes : 0 ≤ e.score := hsc e (List.mem_cons_self e rest)
        have hcontrib : 0 ≤ min 1 ((countSub candidate_text_lower (pyLower e.keyword) : ℚ)
            / (e.frequency : ℚ)) * e.score := by
          apply mul_nonneg _ hes
          exact le_min (by norm_num) (by positivity)
        have hcap : min 1 ((countSub candidate_text_lower (pyLower e.keyword) : ℚ)
            / (e.frequency : ℚ)) * e.score ≤ e.score := by
          calc min 1 ((countSub candidate_text_lower (pyLower e.keyword) : ℚ)
                / (e.frequency : ℚ)) * e.score
              ≤ 1 * e.score := mul_le_mul_of_nonneg_right (min_le_left _ _) hes
            _ = e.score := one_mul _
        exact ih (m + 1) _ _ st (fun x hx => hsc x (List.mem_cons_of_mem _ hx)) h
          (add_nonneg h0 hcontrib) (add_le_add hle hcap)
    · rw [if_neg hc] at h
      have hes : 0 ≤ e.score := hsc e (List.mem_cons_self e rest)
      exact ih m tot _ st (fun x hx => hsc x (List.mem_cons_of_mem _ hx)) h h0
        (le_trans hle (le_add_of_nonneg_right hes))

theorem dynamic_score_bounds (dks : List DynKeyword) (candidate_text : String) (d : DynResult)
    (hsc : ∀ e ∈ dks, 0 ≤ e.score)
    (h : calcDynamicKeywordMatch dks candidate_text = some d) :
    0 ≤ d.score ∧ d.score ≤ 1 := by
  unfold calcDynamicKeywordMatch at h
  by_cases hd : dks = []
  · rw [if_pos hd] at h
    cases h
    norm_num
  · rw [if_neg hd] at h
    cases hst : dynFold (pyLower candidate_text) dks (0, 0, 0) with
    | none => rw [hst] at h; cases h
    | some st =>
      rw [hst] at h
      simp only [Option.map_some'] at h
      obtain ⟨hb0, hb1⟩ := dynFold_bounds (pyLower candidate_text) dks 0 0 0 st hsc hst
        le_rfl le_rfl
      cases h
      simp only
      refine ⟨le_min (by norm_num) ?_, min_le_left _ _⟩
      by_cases hm : (0:ℚ) < st.2.2
      · rw [if_pos hm]
        exact div_nonneg hb0 (le_of_lt hm)
      · rw [if_neg hm]

/-- Rounding to 2 decimal places keeps a value in `[0, 100]` inside
`[0, 100]`. -/
theorem pyRound2_bounds (x : ℚ) (h0 : 0 ≤ x) (h1 : x ≤ 100) :
    0 ≤ pyRound2 x ∧ pyRound2 x ≤ 100 := by
  unfold pyRound2
  constructor
  · apply div_nonneg _ (by norm_num)
    have h : (0:ℤ) ≤ round (x * 100) := by
      rw [round_eq]
      apply Int.floor_nonneg.2
      linarith
    exact_mod_cast h
  · rw [div_le_iff₀ (by norm_num : (0:ℚ) < 100)]
    have h : round (x * 100) ≤ (10000:ℤ) := by
      rw [round_eq]
      have h2 : ⌊x * 100 + 1/2⌋ ≤ ⌊(10000:ℚ) + 1/2⌋ := Int.floor_le_floor (by linarith)
      have h3 : ⌊(10000:ℚ) + 1/2⌋ = 10000 := by
        rw [Int.floor_eq_iff]
        norm_num
      rw [h3] at h2
      exact h2
    have : ((round (x * 100) : ℤ) : ℚ) ≤ 10000 := by exact_mod_cast h
    linarith

end ScoreBounds

/-- **C3.** For every job whose dynamic keywords carry non-negative
importance scores (as all core-computed `dynamicKeywords` do) and every
candidate profile on which scoring succeeds, the returned `total_score`
lies in `[0, 100]` and each of the five breakdown components lies in
`[0, 100]`. -/
theorem scores_bounded_c3 (job_data : JobData) (candidate_data : CandidateData)
    (hw : ∀ e ∈ job_data.dynamic_keywords, 0 ≤ e.score)
    (ms : MatchScore) (h : calcEnhancedMatchScore job_data candidate_data = some ms) :
    (0 ≤ ms.total_score ∧ ms.total_score ≤ 100)
      ∧ (0 ≤ ms.breakdown.skills ∧ ms.breakdown.skills ≤ 100)
      ∧ (0 ≤ ms.breakdown.experience ∧ ms.breakdown.experience ≤ 100)
      ∧ (0 ≤ ms.breakdown.education ∧ ms.breakdown.education ≤ 100)
      ∧ (0 ≤ ms.breakdown.keywords ∧ ms.breakdown.keywords ≤ 100)
      ∧ (0 ≤ ms.breakdown.dynamic_keywords ∧ ms.breakdown.dynamic_keywords ≤ 100) := by
  unfold calcEnhancedMatchScore at h
  cases hd : calcDynamicKeywordMatch job_data.dynamic_keywords candidate_data.raw_text with
  | none => rw [hd] at h; cases h
  | some dres =>
    rw [hd] at h
    simp only [Option.map_some'] at h
    obtain ⟨hs0, hs1⟩ := skills_score_bounds job_data.required_skills
      candidate_data.skills.all_skills
    obtain ⟨he0, he1⟩ := experience_score_bounds job_data.experience_years
      candidate_data.experience.estimated_years
    obtain ⟨hed0, hed1⟩ := education_score_bounds job_data.education_level
      candidate_data.education.degrees
    obtain ⟨hk0, hk1⟩ := keyword_score_bounds job_data.description candidate_data.raw_text
    obtain ⟨hdy0, hdy1⟩ := dynamic_score_bounds job_data.dynamic_keywords
      candidate_data.raw_text dres hw hd
    cases h
    simp only
    refine ⟨?_, ?_, ?_, ?_, ?_, ?_⟩
    · apply pyRound2_bounds
      · have := weights
        simp only [weights] at *
        nlinarith [hs0, he0, hed0, hk0, hdy0]
      · simp only [weights] at *
        nlinarith [hs1, he1, hed1, hk1, hdy1, hs0, he0, hed0, hk0, hdy0]
    · exact pyRound2_bounds _ (by linarith) (by linarith)
    · exact pyRound2_bounds _ (by linarith) (by linarith)
    · exact pyRound2_bounds _ (by linarith) (by linarith)
    · exact pyRound2_bounds _ (by linarith) (by linarith)
    · exact pyRound2_bounds _ (by linarith) (by linarith)

/-- Witness for C3 at a job carrying one positive-score dynamic keyword
and a candidate whose text matches it. -/
theorem scores_bounded_c3_witness :
    (0 ≤ scoreWitness.total_score ∧ scoreWitness.total_score ≤ 100)
      ∧ (0 ≤ scoreWitness.breakdown.skills ∧ scoreWitness.breakdown.skills ≤ 100)
      ∧ (0 ≤ scoreWitness.breakdown.experience ∧ scoreWitness.breakdown.experience ≤ 100)
      ∧ (0 ≤ scoreWitness.breakdown.education ∧ scoreWitness.breakdown.education ≤ 100)
      ∧ (0 ≤ scoreWitness.breakdown.keywords ∧ scoreWitness.breakdown.keywords ≤ 100)
      ∧ (0 ≤ scoreWitness.breakdown.dynamic_keywords
          ∧ scoreWitness.breakdown.dynamic_keywords ≤ 100) :=
  scores_bounded_c3 jobDyn pythonCandData (by decide) scoreWitness rfl

section CounterLemmas

theorem mem_dedupFirst (x : String) : ∀ (l : List String), x ∈ dedupFirst l ↔ x ∈ l := by
  intro l
  induction l with
  | nil => simp [dedupFirst]
  | cons w ws ih =>
    simp only [dedupFirst, List.mem_cons, List.mem_filter, decide_eq_true_eq]
    constructor
    · rintro (rfl | ⟨hx, _⟩)
      · exact Or.inl rfl
      · exact Or.inr (ih.mp hx)
    · rintro (rfl | hx)
      · exact Or.inl rfl
      · by_cases hxw : x = w
        · exact Or.inl hxw
        · exact Or.inr ⟨ih.mpr hx, hxw⟩

theorem nodup_dedupFirst : ∀ (l : List String), (dedupFirst l).Nodup := by
  intro l
  induction l with
  | nil => simp [dedupFirst]
  | cons w ws ih =>
    refine List.Nodup.cons ?_ (List.Nodup.filter _ ih)
    intro hmem
    have := (List.mem_filter.mp hmem).2
    simp at this

theorem toFinset_dedupFirst (l : List String) : (dedupFirst l).toFinset = l.toFinset := by
  ext x
  simp [List.mem_toFinset, mem_dedupFirst]

theorem find?_self_eq (w : String) : ∀ (d : List String),
    d.find? (fun x => x = w) = if w ∈ d then some w else none := by
  intro d
  induction d with
  | nil => simp
  | cons a d ih =>
    rw [List.find?_cons]
    by_cases haw : a = w
    · subst haw
      simp
    · have hwa : w ≠ a := fun hc => haw hc.symm
      simp [haw, hwa, ih, List.mem_cons]

theorem lookupCount_counterItems (l : List String) (w : String) :
    lookupCount (counterItems l) w = l.count w := by
  unfold lookupCount counterItems
  rw [List.find?_map]
  have hcomp : ((fun p : String × Nat => decide (p.1 = w)) ∘ (fun w' => (w', l.count w')))
      = fun x => decide (x = w) := rfl
  rw [hcomp, find?_self_eq]
  by_cases hw : w ∈ dedupFirst l
  · simp [hw]
  · rw [if_neg hw]
    have hnl : w ∉ l := fun hc => hw ((mem_dedupFirst w l).mpr hc)
    simp [List.count_eq_zero.mpr hnl]

theorem counterItems_snd_sum (l : List String) :
    ((counterItems l).map (fun p => p.2)).sum = l.length := by
  unfold counterItems
  rw [List.map_map]
  have hcomp : ((fun p : String × Nat => p.2) ∘ (fun w => (w, l.count w)))
      = fun w => l.count w := rfl
  rw [hcomp]
  have hsum := List.sum_toFinset (fun w => l.count w) (nodup_dedupFirst l)
  rw [← hsum, toFinset_dedupFirst]
  exact List.sum_toFinset_count_eq_length l

theorem counterItems_sum_cast (l : List String) :
    ((counterItems l).map (fun p => (p.2 : ℚ))).sum = (l.length : ℚ) := by
  have hcomp : (fun p : String × Nat => (p.2 : ℚ))
      = ((Nat.cast : ℕ → ℚ) ∘ fun p : String × Nat => p.2) := rfl
  rw [hcomp, ← List.map_map, ← Nat.cast_list_sum, counterItems_snd_sum]

/-- The per-item accumulation of `_calculate_keyword_match_enhanced`
(`min(job_count, g) / job_count * job_count` summed over the counter
items) collapses to the sum of `min(f_job, g)` over the distinct job
keywords: every stored count is positive, so the division cancels. -/
theorem counter_min_sum (jks : List String) (g : String → Nat) :
    ((counterItems jks).map
        (fun p => ((min p.2 (g p.1) : ℕ) : ℚ) / p.2 * p.2)).sum
      = ∑ w in jks.toFinset, ((min (jks.count w) (g w) : ℕ) : ℚ) := by
  unfold counterItems
  rw [List.map_map]
  have hfun : ∀ w ∈ dedupFirst jks,
      (((fun p : String × Nat => ((min p.2 (g p.1) : ℕ) : ℚ) / p.2 * p.2)
          ∘ (fun w => (w, jks.count w))) w)
        = ((min (jks.count w) (g w) : ℕ) : ℚ) := by
    intro w hw
    have hwmem : w ∈ jks := (mem_dedupFirst w jks).mp hw
    have hpos : 0 < jks.count w := List.count_pos_iff.mpr hwmem
    have hne : ((jks.count w : ℚ)) ≠ 0 := ne_of_gt (by exact_mod_cast hpos)
    simp only [Function.comp]
    rw [div_mul_cancel₀ _ hne]
  rw [List.map_congr_left hfun,
    ← List.sum_toFinset _ (nodup_dedupFirst jks), toFinset_dedupFirst]

end CounterLemmas

/-- **C7, counterexample.** With keywords read as the claim states
(length ≥ 3), the job description "abc abc" has keywords and an empty
candidate would score 0; the code filters tokens to length strictly
greater than 3, finds no keywords, and returns the 1.0 default. -/
theorem keyword_score_c7_counterexample :
    calcKeywordMatchEnhanced "abc abc" "" = 1
      ∧ claimKeywordScoreWith claimKeywordTokens "abc abc" "" = 0
      ∧ calcKeywordMatchEnhanced "abc abc" ""
          ≠ claimKeywordScoreWith claimKeywordTokens "abc abc" "" :=
  ⟨by decide, by decide, by decide⟩

/-- **C7, amended.** The keyword-match score is exactly the claimed
formula — `Σ min(f_job, f_candidate) / Σ f_job` over the job keywords,
clamped to `[0,1]`, with 1.0 for an empty job description or an empty
keyword list — once "keywords" are the stop-word-filtered alphabetic
tokens of **more than 3** characters (the code keeps `len(word) > 3`),
not "at least 3". -/
theorem keyword_score_c7_amended (job_description candidate_text : String) :
    calcKeywordMatchEnhanced job_description candidate_text
      = claimKeywordScoreWith extractMeaningfulKeywords job_description candidate_text := by
  unfold calcKeywordMatchEnhanced claimKeywordScoreWith
  by_cases h : job_description = ""
  · simp [h]
  · rw [if_neg h, if_neg h]
    by_cases hk : extractMeaningfulKeywords job_description = []
    · simp [hk]
    · rw [if_neg hk, if_neg hk]
      simp only
      rw [counterItems_sum_cast]
      have hlen : (0:ℚ) < ((extractMeaningfulKeywords job_description).length : ℚ) := by
        exact_mod_cast List.length_pos.mpr hk
      rw [if_pos hlen]
      rw [counter_min_sum (extractMeaningfulKeywords job_description)
        (lookupCount (counterItems (extractMeaningfulKeywords candidate_text)))]
      simp only [lookupCount_counterItems]

/-- **C9.** Every kept token of `extract_job_keywords` is scored as its
raw frequency, doubled when the token (case-insensitively) occurs among
the detected technical terms and additionally multiplied by 1.2 when
longer than 6 characters; the output order is the stable
descending-frequency order of the top-30 selection (shown both as
sortedness of the frequency column and as equality with `most_common 30`
of the token counter), never re-sorted by the final score. -/
theorem job_keywords_scoring_c9 (job_description : String) :
    (∀ e ∈ extractJobKeywords job_description,
        e.score = (if ((technicalTerms (pyLower job_description)).map pyLower).contains
                (pyLower e.keyword) then 2 else 1)
            * (if 6 < e.keyword.length then 12/10 else 1) * (e.frequency : ℚ))
    ∧ ((extractJobKeywords job_description).map (fun e => e.frequency)).Pairwise
        (fun a b => b ≤ a)
    ∧ (extractJobKeywords job_description).map (fun e => (e.keyword, e.frequency))
        = mostCommon 30 (counterItems
            ((alphaTokensMin 3 (pyLower job_description)).filter
              (fun w => !jobStopWords.contains w)))
    ∧ (extractJobKeywords job_description).length ≤ 30 := by
  by_cases h : job_description = ""
  · subst h
    exact ⟨by decide, by decide, by decide, by decide⟩
  · unfold extractJobKeywords
    rw [if_neg h]
    simp only
    refine ⟨?_, ?_, ?_, ?_⟩
    · intro e he
      obtain ⟨p, hp, rfl⟩ := List.mem_map.mp he
      simp only [jobKeywordScore]
      by_cases hB : 6 < p.1.length
      · cases hA : ((technicalTerms (pyLower job_description)).map pyLower).contains
            (pyLower p.1)
        · simp [hA, hB]
          try ring
        · simp [hA, hB]
          try ring
      · cases hA : ((technicalTerms (pyLower job_description)).map pyLower).contains
            (pyLower p.1)
        · simp [hA, hB]
          try ring
        · simp [hA, hB]
          try ring
    · rw [List.map_map]
      unfold mostCommon
      have hsorted := sorted_sortDescBy (fun p : String × Nat => p.2)
        (counterItems ((alphaTokensMin 3 (pyLower job_description)).filter
          (fun w => !jobStopWords.contains w)))
      have htake := List.Pairwise.sublist (List.take_sublist 30 _) hsorted
      exact List.pairwise_map.mpr htake
    · rw [List.map_map]
      have hid : ∀ p ∈ mostCommon 30 (counterItems
            ((alphaTokensMin 3 (pyLower job_description)).filter
              (fun w => !jobStopWords.contains w))),
          (((fun e : DynKeyword => (e.keyword, e.frequency))
            ∘ fun p : String × Nat =>
              ({ keyword := p.1,
                 score := jobKeywordScore (technicalTerms (pyLower job_description)) p.1 p.2,
                 frequency := p.2, type := "single" } : DynKeyword)) p) = id p :=
        fun p _ => rfl
      rw [List.map_congr_left hid, List.map_id]
    · rw [List.length_map]
      unfold mostCommon
      exact List.length_take_le 30 _

theorem mem_sortDescBy {α β : Type} [LinearOrder β] (key : α → β) (a : α) :
    ∀ (l : List α), a ∈ sortDescBy key l ↔ a ∈ l := by
  intro l
  induction l with
  | nil => simp [sortDescBy]
  | cons x xs ih =>
    unfold sortDescBy
    rw [mem_insertDescBy, List.mem_cons, ih]

/-- The dynamic keywords the core computes satisfy the contract the
bounds theorem (C3) assumes of a `JobPosting`: non-negative importance
scores and positive frequencies. -/
theorem extractJobKeywords_wellFormed (job_description : String) :
    ∀ e ∈ extractJobKeywords job_description, 0 ≤ e.score ∧ 1 ≤ e.frequency := by
  intro e he
  unfold extractJobKeywords at he
  by_cases h : job_description = ""
  · rw [if_pos h] at he
    simp at he
  · rw [if_neg h] at he
    simp only at he
    obtain ⟨p, hp, rfl⟩ := List.mem_map.mp he
    unfold mostCommon at hp
    have hp2 : p ∈ sortDescBy (fun q : String × Nat => q.2)
        (counterItems ((alphaTokensMin 3 (pyLower job_description)).filter
          (fun w => !jobStopWords.contains w))) :=
      (List.take_sublist 30 _).subset hp
    have hp3 := (mem_sortDescBy _ p _).mp hp2
    unfold counterItems at hp3
    obtain ⟨w, hw, rfl⟩ := List.mem_map.mp hp3
    have hwmem := (mem_dedupFirst w _).mp hw
    have hpos : 0 < ((alphaTokensMin 3 (pyLower job_description)).filter
        (fun x => !jobStopWords.contains x)).count w := List.count_pos_iff.mpr hwmem
    refine ⟨?_, hpos⟩
    simp only [jobKeywordScore]
    by_cases hB : 6 < w.length
    · cases hA : ((technicalTerms (pyLower job_description)).map pyLower).contains (pyLower w)
      · simp [hA, hB]
        try positivity
      · simp [hA, hB]
        try positivity
    · cases hA : ((technicalTerms (pyLower job_description)).map pyLower).contains (pyLower w)
      · simp [hA, hB]
        try positivity
      · simp [hA, hB]
        try positivity

/-- Witness for C9: on the description "python developer python", the
entry for "python" (frequency 2, detected technical, length 6) scores
exactly `2 * 1 * 2 = 4`. -/
theorem job_keywords_scoring_c9_witness :
    (4 : ℚ) = (if ((technicalTerms (pyLower "python developer python")).map pyLower).contains
            (pyLower "python") then 2 else 1)
        * (if 6 < ("python" : String).length then 12/10 else 1) * ((2 : ℕ) : ℚ) :=
  (job_keywords_scoring_c9 "python developer python").1
    { keyword := "python", score := 4, frequency := 2, type := "single" } (by decide)

end SmartATS
